import Mathlib

/-!
Verification of the employee-directory command-line utility (`src/main.py`).

The program is a thin wrapper over SQLite: an `Employee` dataclass with an
age computation, an `EmployeeDirectory` data-access object (create table,
single/batch insert, grouped listing, random bulk generation, timed search,
index creation, close), and a `main` dispatcher keyed on a numeric mode
string.  We embed the data model, the SQL semantics the program relies on
(inserts, GROUP BY / ORDER BY listing, CREATE ... IF NOT EXISTS), the
random generator (through an explicit tape of draws), the wall clock
(through an explicit stream of time stamps), and the dispatcher with its
try/finally resource handling, and prove the specification's claims.
-/

namespace EmployeeDir

/-- The `Employee` dataclass of `main.py`: three string fields. -/
structure Employee where
  full_name : String
  birth_date : String
  gender : String
deriving DecidableEq, Repr

/-! ## Dates: `datetime.strptime(s, "%Y-%m-%d").date()` and `date.today()` -/

/-- A calendar date, as produced by Python's `datetime.date`. -/
structure Date where
  year : Nat
  month : Nat
  day : Nat
deriving DecidableEq, Repr

/-- Gregorian leap-year rule used by `datetime`. -/
def isLeapYear (y : Nat) : Bool :=
  (y % 4 == 0 && y % 100 != 0) || y % 400 == 0

/-- Number of days in month `m` of a year with leap flag `leap`. -/
def monthDays (leap : Bool) (m : Nat) : Nat :=
  if m = 2 then (if leap then 29 else 28)
  else if m = 4 ∨ m = 6 ∨ m = 9 ∨ m = 11 then 30
  else 31

/-- Numeric value of a decimal digit character. -/
def charVal (c : Char) : Nat := c.toNat - 48

/-- All characters are decimal digits. -/
def isDigits (cs : List Char) : Bool := cs.all Char.isDigit

/-- Decimal value of a digit string. -/
def digitsVal (cs : List Char) : Nat := cs.foldl (fun a c => 10 * a + charVal c) 0

/-- Prepend a character to the first part of a split. -/
def consHead (c : Char) : List (List Char) → List (List Char)
  | [] => [[c]]
  | t :: ts => (c :: t) :: ts

/-- Split a character list at every dash, the dashes themselves dropped. -/
def splitDashes : List Char → List (List Char)
  | [] => [[]]
  | c :: rest =>
    if c = '-' then [] :: splitDashes rest
    else consHead c (splitDashes rest)

/-- The dash-separated parts a `%Y-%m-%d` string must decompose into:
exactly four digits for `%Y` and one or two digits for `%m` and `%d`
(CPython's `_strptime` regexes), and the resulting numbers must form a real
calendar date with year at least `MINYEAR = 1`. -/
def parseParts : List (List Char) → Option Date
  | [ys, ms, ds] =>
    if ys.length = 4 ∧ isDigits ys
        ∧ 1 ≤ ms.length ∧ ms.length ≤ 2 ∧ isDigits ms
        ∧ 1 ≤ ds.length ∧ ds.length ≤ 2 ∧ isDigits ds then
      let y := digitsVal ys
      let m := digitsVal ms
      let d := digitsVal ds
      if 1 ≤ y ∧ 1 ≤ m ∧ m ≤ 12 ∧ 1 ≤ d ∧ d ≤ monthDays (isLeapYear y) m then
        some ⟨y, m, d⟩
      else none
    else none
  | _ => none

/-- Model of `datetime.strptime(s, "%Y-%m-%d").date()`; on any format
mismatch or impossible date the call raises, which we model as `none`. -/
def parseDate (s : String) : Option Date :=
  parseParts (splitDashes s.data)

/-- Python tuple comparison `(a₁, a₂) < (b₁, b₂)`: lexicographic. -/
def pairLt (a b : Nat × Nat) : Bool :=
  a.1 < b.1 || (a.1 = b.1 && a.2 < b.2)

/-- `Employee.calculate_age` of `main.py`, with `date.today()` made an
explicit parameter: parse the birth date (a parse failure propagates as a
`ValueError`, modelled by `none`), subtract the years, and subtract one more
when today's (month, day) precedes the birth (month, day) lexicographically. -/
def calculate_age (birth_date : String) (today : Date) : Option Int :=
  match parseDate birth_date with
  | none => none
  | some b =>
    let age : Int := (today.year : Int) - (b.year : Int)
    if pairLt (today.month, today.day) (b.month, b.day) then some (age - 1)
    else some age

/-- Date `b` is on or before date `t` in calendar order (triple-lexicographic). -/
def dateLE (b t : Date) : Prop :=
  b.year < t.year ∨ (b.year = t.year ∧
    (b.month < t.month ∨ (b.month = t.month ∧ b.day ≤ t.day)))

instance (b t : Date) : Decidable (dateLE b t) := by
  unfold dateLE; infer_instance

/-- The anniversary of `(m, d)` in year `y` has occurred on or before `t`. -/
def annivLE (y m d : Nat) (t : Date) : Bool :=
  decide (dateLE ⟨y, m, d⟩ t)

/-- The conventional whole-years-elapsed age, taken from the spec's words:
the number of birthdays strictly after the birth year that have occurred on
or before `today` (anniversaries in years `b.year + 1 .. today.year`). -/
def wholeYearsElapsed (b : Date) (today : Date) : Nat :=
  (List.range (today.year - b.year)).countP
    (fun j => annivLE (b.year + 1 + j) b.month b.day today)

/-! ## The SQLite database state -/

/-- State of the `employees.db` file: whether the `employees` table exists,
its rows in insertion (rowid) order, and whether `idx_gender_lastname`
exists.  The auto-increment `id` column is a row's position and is used by
no query of the program. -/
structure DB where
  tableExists : Bool
  rows : List Employee
  indexExists : Bool
deriving DecidableEq, Repr

/-- Observable actions of a run: SQL statements sent to the engine, lines
written to standard output, and the `close()` of the connection. -/
inductive Event where
  | sqlCreateTable
  | sqlInsert (es : List Employee)
  | sqlSelectGroup
  | sqlSelectSearch
  | sqlCreateIndex
  | out (line : String)
  | closeConn
deriving DecidableEq, Repr

/-- Error raised by SQLite when a statement touches the missing table. -/
def noTableErr : String := "no such table: employees"

/-! ## Grouped listing: the `GROUP BY full_name, birth_date` query -/

/-- The grouping key of the listing query. -/
def key (e : Employee) : String × String := (e.full_name, e.birth_date)

/-- The distinct `(full_name, birth_date)` keys of the stored rows, each
once, in order of first occurrence. -/
def distinctKeys : List Employee → List (String × String)
  | [] => []
  | e :: rest => key e :: (distinctKeys rest).filter (fun k => k ≠ key e)

/-- Byte order on strings (UTF-8 order coincides with code-point order):
the `BINARY` collation SQLite uses for `ORDER BY full_name`. -/
def charListLe : List Char → List Char → Bool
  | [], _ => true
  | _ :: _, [] => false
  | a :: as, b :: bs =>
    if a.toNat < b.toNat then true
    else if b.toNat < a.toNat then false
    else charListLe as bs

/-- Lexicographic order on the raw strings. -/
def strLe (a b : String) : Bool := charListLe a.data b.data

/-- Order on grouping keys used by `ORDER BY full_name`: by name only. -/
def keyLe (a b : String × String) : Bool := strLe a.1 b.1

/-- Insert into a list sorted by `le`. -/
def insertLe (le : α → α → Bool) (a : α) : List α → List α
  | [] => [a]
  | b :: l => if le a b then a :: b :: l else b :: insertLe le a l

/-- Insertion sort by `le`, modelling the engine's sort for `ORDER BY`. -/
def sortLe (le : α → α → Bool) : List α → List α
  | [] => []
  | a :: l => insertLe le a (sortLe le l)

/-- The row of the group with key `k` that supplies the bare `gender`
column.  SQLite documents that a bare column in an aggregate query takes
its value from an arbitrary row of the group; we fix the first matching
row.  The fallback of `getD` is never reached for keys drawn from the rows. -/
def groupRep (rows : List Employee) (k : String × String) : Employee :=
  (rows.find? (fun e => key e = k)).getD ⟨k.1, k.2, ""⟩

/-- Result set of `SELECT full_name, birth_date, gender FROM employees
GROUP BY full_name, birth_date ORDER BY full_name`. -/
def sqlGroupRows (rows : List Employee) : List Employee :=
  (sortLe keyLe (distinctKeys rows)).map (groupRep rows)

/-- The line printed for one listing row. -/
def listLine (e : Employee) (age : Int) : String :=
  "Name: " ++ e.full_name ++ ", Birth Date: " ++ e.birth_date ++
    ", Gender: " ++ e.gender ++ ", Age: " ++ toString age

/-- Error raised by `strptime` on a string the format rejects. -/
def badDateErr (s : String) : String :=
  "time data " ++ s ++ " does not match format %Y-%m-%d"

/-- The printing loop of `get_all_unique_employees`: one line per grouped
row; a row whose birth date fails to parse raises after the earlier lines
have been printed. -/
def listLoop (today : Date) : List Employee → List Event × Except String Unit
  | [] => ([], Except.ok ())
  | e :: rest =>
    match calculate_age e.birth_date today with
    | none => ([], Except.error (badDateErr e.birth_date))
    | some a =>
      (Event.out (listLine e a) :: (listLoop today rest).1,
       (listLoop today rest).2)

/-! ## The `EmployeeDirectory` operations -/

/-- `create_table`: `CREATE TABLE IF NOT EXISTS employees ...`, then a
success message.  Never fails; an existing table is left untouched. -/
def create_table (db : DB) : DB × List Event :=
  ({ db with tableExists := true },
   [Event.sqlCreateTable,
    Event.out "Table \x27employees\x27 created successfully."])

/-- `add_employee`: one `INSERT`, failing when the table is missing. -/
def add_employee (db : DB) (full_name birth_date gender : String) :
    Except String (DB × List Event) :=
  if db.tableExists then
    let e : Employee := ⟨full_name, birth_date, gender⟩
    Except.ok ({ db with rows := db.rows ++ [e] },
      [Event.sqlInsert [e],
       Event.out ("Employee " ++ full_name ++ " added successfully.")])
  else Except.error noTableErr

/-- Events of one successful `batch_add_employees` call. -/
def batchEvents (es : List Employee) : List Event :=
  [Event.sqlInsert es,
   Event.out ("Added " ++ toString es.length ++ " employees in batch.")]

/-- `batch_add_employees`: one `executemany` insert plus a message. -/
def batch_add_employees (db : DB) (es : List Employee) :
    Except String (DB × List Event) :=
  if db.tableExists then
    Except.ok ({ db with rows := db.rows ++ es }, batchEvents es)
  else Except.error noTableErr

/-- `get_all_unique_employees`: the grouped query, then the print loop. -/
def get_all_unique_employees (db : DB) (today : Date) :
    List Event × Except String Unit :=
  if db.tableExists then
    (Event.sqlSelectGroup :: (listLoop today (sqlGroupRows db.rows)).1,
     (listLoop today (sqlGroupRows db.rows)).2)
  else ([], Except.error noTableErr)

/-- `optimize_database`: `CREATE INDEX IF NOT EXISTS idx_gender_lastname
ON employees(gender, full_name)`; fails when the table is missing. -/
def optimize_database (db : DB) : Except String (DB × List Event) :=
  if db.tableExists then
    Except.ok ({ db with indexExists := true },
      [Event.sqlCreateIndex,
       Event.out "Database optimized with index on gender and full_name."])
  else Except.error noTableErr

/-- `full_name LIKE \x27F%\x27` under SQLite's default ASCII-case-insensitive
`LIKE`: the first character is `F` or `f`. -/
def likeF (s : String) : Bool :=
  match s.data with
  | [] => false
  | c :: _ => c = 'F' || c = 'f'

/-- Abstraction of Python's float formatting in the timing messages. -/
def fmtTime (q : ℚ) : String := toString q

/-- The query and the two printed lines of one timed search. -/
def searchEvents (n : Nat) (elapsed : ℚ) : List Event :=
  [Event.sqlSelectSearch,
   Event.out ("Found " ++ toString n ++
     " male employees with last names starting with \x27F\x27"),
   Event.out ("Execution time: " ++ fmtTime elapsed ++ " seconds")]

/-- The result set of the search query on the stored rows. -/
def searchRows (rows : List Employee) : List Employee :=
  rows.filter (fun e => e.gender = "Male" && likeF e.full_name)

/-- `search_male_f_lastname`, with `time.time()` made an explicit stream of
clock readings: the two readings taken by this call are `clock k` and
`clock (k + 1)`; the query filters on gender and the `F` prefix, two lines
are printed, and the elapsed time is returned. -/
def search_male_f_lastname (db : DB) (clock : Nat → ℚ) (k : Nat) :
    Except String (ℚ × List Event) :=
  if db.tableExists then
    Except.ok (clock (k + 1) - clock k,
      searchEvents (searchRows db.rows).length (clock (k + 1) - clock k))
  else Except.error noTableErr

/-! ## Random generation: `generate_random_employees`

`random.choice` and `random.randint` are driven by an explicit tape of
natural numbers: draw `i` of a run reads `tape pos`, reduced modulo the
number of alternatives, and advances the position.  Every possible sequence
of choices of the Python generator is realised by some tape. -/

/-- A pseudo-random source: an infinite tape and a position on it. -/
structure RNG where
  tape : Nat → Nat
  pos : Nat

/-- `random.choice(xs)`: one element of a non-empty list. -/
def choiceD (r : RNG) (xs : List String) : String × RNG :=
  (xs.getD (r.tape r.pos % xs.length) "", ⟨r.tape, r.pos + 1⟩)

/-- `random.randint(a, b)`: an integer in `[a, b]`, both ends included. -/
def randint (r : RNG) (a b : Nat) : Nat × RNG :=
  (a + r.tape r.pos % (b + 1 - a), ⟨r.tape, r.pos + 1⟩)

/-- The male first names of `generate_random_employees`. -/
def first_names_male : List String :=
  ["James", "John", "Robert", "Michael", "William",
   "David", "Richard", "Joseph", "Thomas", "Charles"]

/-- The female first names. -/
def first_names_female : List String :=
  ["Mary", "Patricia", "Jennifer", "Linda", "Elizabeth",
   "Barbara", "Susan", "Jessica", "Sarah", "Karen"]

/-- The last names. -/
def last_names : List String :=
  ["Smith", "Johnson", "Williams", "Brown", "Jones",
   "Miller", "Davis", "Garcia", "Rodriguez", "Wilson"]

/-- The middle-initial tokens. -/
def middle_names : List String := ["A.", "B.", "C.", "D.", "E."]

/-- The suffixes completing an `F` last name in the final batch. -/
def f_suffixes : List String := ["isher", "ord", "letcher", "ranklin", "erguson"]

/-- Zero-padding to two digits: Python's `f"{n:02d}"`. -/
def pad2 (n : Nat) : String := if n < 10 then "0" ++ Nat.repr n else Nat.repr n

/-- Python's `f"{year}-{month:02d}-{day:02d}"`. -/
def fmtBirthDate (y m d : Nat) : String :=
  Nat.repr y ++ "-" ++ pad2 m ++ "-" ++ pad2 d

/-- One random birth date: year in `[1950, 2005]`, month in `[1, 12]`,
day in `[1, 28]`. -/
def genBirthDate (r : RNG) : String × RNG :=
  let (year, r) := randint r 1950 2005
  let (month, r) := randint r 1 12
  let (day, r) := randint r 1 28
  (fmtBirthDate year month day, r)

/-- One iteration of the main generation loop: gender, first name keyed on
the gender, last name, middle initial, composed full name, birth date. -/
def genOne (r : RNG) : Employee × RNG :=
  let (gender, r) := choiceD r ["Male", "Female"]
  let (first_name, r) :=
    choiceD r (if gender = "Male" then first_names_male else first_names_female)
  let (last_name, r) := choiceD r last_names
  let (middle_name, r) := choiceD r middle_names
  let full_name := last_name ++ " " ++ first_name ++ " " ++ middle_name
  let (birth_date, r) := genBirthDate r
  (⟨full_name, birth_date, gender⟩, r)

/-- One synthesized `F`-surname male employee of the final batch. -/
def genFOne (r : RNG) : Employee × RNG :=
  let (first_name, r) := choiceD r first_names_male
  let (suffix, r) := choiceD r f_suffixes
  let last_name := "F" ++ suffix
  let (middle_name, r) := choiceD r middle_names
  let full_name := last_name ++ " " ++ first_name ++ " " ++ middle_name
  let (birth_date, r) := genBirthDate r
  (⟨full_name, birth_date, "Male"⟩, r)

/-- The `count` employees of the main loop, in generation order. -/
def genMain : Nat → RNG → List Employee × RNG
  | 0, r => ([], r)
  | n + 1, r =>
    let (e, r) := genOne r
    let (es, r') := genMain n r
    (e :: es, r')

/-- The 100 employees of the `F` batch, in generation order. -/
def genF : Nat → RNG → List Employee × RNG
  | 0, r => ([], r)
  | n + 1, r =>
    let (e, r) := genFOne r
    let (es, r') := genF n r
    (e :: es, r')

/-- The buffering of the main loop: records accumulate in `buf` and a chunk
is emitted every time the buffer reaches 10,000 (the `len(employees) >=
10000` test after each append); returns the emitted chunks and the leftover
buffer. -/
def chunkFlush : List Employee → List Employee → List (List Employee) × List Employee
  | buf, [] => ([], buf)
  | buf, e :: es =>
    if 10000 ≤ (buf ++ [e]).length then
      ((buf ++ [e]) :: (chunkFlush [] es).1, (chunkFlush [] es).2)
    else chunkFlush (buf ++ [e]) es

/-- `generate_random_employees(count)`: generate `count` records flushing
every 10,000, flush the remainder if non-empty, then generate and flush the
100-record `F` batch.  When the table is missing the first flush — there
always is at least one, the `F` batch — raises before anything is inserted
or printed. -/
def generate_random_employees (db : DB) (count : Nat) (r : RNG) :
    Except String (DB × List Event × RNG) :=
  if db.tableExists then
    let es := (genMain count r).1
    let r1 := (genMain count r).2
    let rem := (chunkFlush [] es).2
    let mainChunks := (chunkFlush [] es).1 ++ (if rem.isEmpty then [] else [rem])
    let fes := (genF 100 r1).1
    let allChunks := mainChunks ++ [fes]
    Except.ok
      ({ db with rows := db.rows ++ allChunks.flatten },
       (allChunks.map batchEvents).flatten ++
         [Event.out "Finished generating random employees."],
       (genF 100 r1).2)
  else Except.error noTableErr

/-! ## The command dispatcher (`main`) -/

/-- The usage lines printed when no mode is given. -/
def usageLines : List String :=
  ["Usage: python employee_directory.py <mode> [arguments]",
   "Modes:",
   "  1 - Create employee table",
   "  2 - Add employee (requires full_name, birth_date, gender)",
   "  3 - List all unique employees sorted by name",
   "  4 - Generate random employees",
   "  5 - Search male employees with last names starting with F",
   "  6 - Optimize database"]

/-- The usage line printed by mode 2 on missing arguments. -/
def usage2Line : String :=
  "Usage: python employee_directory.py 2 \"Full Name\" \"YYYY-MM-DD\" \"Gender\""

/-- Message of Python's `ZeroDivisionError` on float division. -/
def divZeroErr : String := "float division by zero"

/-- The mode-6 report line: improvement is `before - after`, speedup is
`before / after`. -/
def reportLine (before_time after_time : ℚ) : String :=
  "\nOptimization improvement: " ++ fmtTime (before_time - after_time) ++
    " seconds (" ++ fmtTime (before_time / after_time) ++ "x faster)"

/-- The body of the `try` block of `main`: dispatch on the mode string.
Returns the final database, the events of the dispatched operation, and
`Except.error` exactly when the operation raised. -/
def dispatch (mode : String) (args : List String) (db : DB) (today : Date)
    (clock : Nat → ℚ) (r : RNG) : DB × List Event × Except String Unit :=
  if mode = "1" then
    let (db', evs) := create_table db
    (db', evs, Except.ok ())
  else if mode = "2" then
    match args with
    | full_name :: birth_date :: gender :: _ =>
      match add_employee db full_name birth_date gender with
      | Except.ok (db', evs) => (db', evs, Except.ok ())
      | Except.error e => (db, [], Except.error e)
    | _ => (db, [Event.out usage2Line], Except.ok ())
  else if mode = "3" then
    let (evs, res) := get_all_unique_employees db today
    (db, evs, res)
  else if mode = "4" then
    match generate_random_employees db 1000000 r with
    | Except.ok (db', evs, _) => (db', evs, Except.ok ())
    | Except.error e => (db, [], Except.error e)
  else if mode = "5" then
    match search_male_f_lastname db clock 0 with
    | Except.ok (_, evs) => (db, evs, Except.ok ())
    | Except.error e => (db, [], Except.error e)
  else if mode = "6" then
    match optimize_database db with
    | Except.error e => (db, [], Except.error e)
    | Except.ok (db1, evs1) =>
      let evs1 := evs1 ++
        [Event.out "Running performance test before and after optimization...",
         Event.out "\nBefore optimization:"]
      match search_male_f_lastname db1 clock 0 with
      | Except.error e => (db1, evs1, Except.error e)
      | Except.ok (before_time, evs2) =>
        let evs2 := evs1 ++ evs2 ++ [Event.out "\nAfter optimization:"]
        match search_male_f_lastname db1 clock 2 with
        | Except.error e => (db1, evs2, Except.error e)
        | Except.ok (after_time, evs3) =>
          let evs3 := evs2 ++ evs3
          if after_time = 0 then (db1, evs3, Except.error divZeroErr)
          else (db1, evs3 ++ [Event.out (reportLine before_time after_time)],
                Except.ok ())
  else (db, [Event.out ("Unknown mode: " ++ mode)], Except.ok ())

/-- Result of one program invocation. -/
structure RunResult where
  db : DB
  events : List Event
  result : Except String Unit
deriving Repr

/-- `main`, with `sys.argv[1:]`, today's date, the wall clock and the
random source as explicit inputs.  With no arguments the usage text is
printed before the store is even constructed; otherwise the store is
constructed, the dispatch runs inside `try`, and the `finally` closes the
connection on every path, an exception included. -/
def runMain (argv : List String) (db : DB) (today : Date)
    (clock : Nat → ℚ) (r : RNG) : RunResult :=
  match argv with
  | [] => ⟨db, usageLines.map Event.out, Except.ok ()⟩
  | mode :: args =>
    let (db', evs, res) := dispatch mode args db today clock r
    ⟨db', evs ++ [Event.closeConn], res⟩

/-- The decimal checks a birth-date component must satisfy. -/
def numChk (cs : List Char) (n len : Nat) : Bool :=
  (cs.length == len) && isDigits cs && (digitsVal cs == n) &&
    cs.all (fun c => c != '-')

/-- The spec's pattern for the final batch: full name
`F(isher|ord|letcher|ranklin|erguson) <male first> <initial>.` and gender
`Male`. -/
def isFPattern (e : Employee) : Bool :=
  (e.gender == "Male") &&
    f_suffixes.any (fun suf => first_names_male.any (fun fn =>
      middle_names.any (fun mi =>
        e.full_name == "F" ++ suf ++ " " ++ fn ++ " " ++ mi)))

/-- The batch of an insert event, when the event is an insert. -/
def insertedBatch : Event → Option (List Employee)
  | Event.sqlInsert es => some es
  | _ => none

/-- Recognize a timed-search query event. -/
def isSearchEv : Event → Bool
  | Event.sqlSelectSearch => true
  | Event.sqlCreateTable => false
  | Event.sqlInsert _ => false
  | Event.sqlSelectGroup => false
  | Event.sqlCreateIndex => false
  | Event.out _ => false
  | Event.closeConn => false

/-- Recognize the index-creation statement event. -/
def isCreateIndexEv : Event → Bool
  | Event.sqlCreateIndex => true
  | Event.sqlCreateTable => false
  | Event.sqlInsert _ => false
  | Event.sqlSelectGroup => false
  | Event.sqlSelectSearch => false
  | Event.out _ => false
  | Event.closeConn => false

/-- Recognize the connection-close event. -/
def isCloseEv : Event → Bool
  | Event.closeConn => true
  | Event.sqlCreateTable => false
  | Event.sqlInsert _ => false
  | Event.sqlSelectGroup => false
  | Event.sqlSelectSearch => false
  | Event.sqlCreateIndex => false
  | Event.out _ => false

/-- Decide whether the first list is an initial segment of the second. -/
def listIsPref : List Char → List Char → Bool
  | [], _ => true
  | _ :: _, [] => false
  | a :: as, b :: bs => a == b && listIsPref as bs

/-- The line shape the spec's end-to-end scenario expects the listing to
print for the inserted employee. -/
def fordLineStart : String := "Ford Henry A., 1980-05-15, Male, age="

/-- Whether some printed line of a trace starts with `fordLineStart`. -/
def hasFordLine (evs : List Event) : Bool :=
  evs.any (fun e => match e with
    | Event.out l => listIsPref fordLineStart.data l.data
    | _ => false)

/-! ## Age computation (C1) -/

/-- On today's own year, the anniversary has occurred exactly when the
month/day pair does not lexicographically exceed today's. -/
lemma annivLE_self (bm bd : Nat) (t : Date) :
    annivLE t.year bm bd t = !pairLt (t.month, t.day) (bm, bd) := by
  have h : dateLE ⟨t.year, bm, bd⟩ t ↔
      ¬ (t.month < bm ∨ (t.month = bm ∧ t.day < bd)) := by
    unfold dateLE; simp; omega
  have h2 : pairLt (t.month, t.day) (bm, bd) =
      decide (t.month < bm ∨ (t.month = bm ∧ t.day < bd)) := by
    unfold pairLt; simp
  unfold annivLE
  rw [h2, decide_eq_decide.mpr h, decide_not]

/-- An anniversary strictly before today's year has always occurred. -/
lemma annivLE_of_lt (y bm bd : Nat) (t : Date) (h : y < t.year) :
    annivLE y bm bd t = true := by
  unfold annivLE dateLE
  simp
  omega

/-- The count of elapsed anniversaries agrees with the year-difference
formula used by `calculate_age`, for birth dates not after today. -/
lemma wholeYearsElapsed_formula (b t : Date) (hle : dateLE b t) :
    (wholeYearsElapsed b t : Int) =
      (t.year : Int) - (b.year : Int) -
        (if pairLt (t.month, t.day) (b.month, b.day) then 1 else 0) := by
  unfold wholeYearsElapsed
  rcases Nat.lt_or_ge b.year t.year with hy | hy
  · obtain ⟨n, hn⟩ : ∃ n, t.year - b.year = n + 1 := ⟨t.year - b.year - 1, by omega⟩
    rw [hn, List.range_succ, List.countP_append]
    have h1 : (List.range n).countP
        (fun j => annivLE (b.year + 1 + j) b.month b.day t) = n := by
      rw [List.countP_eq_length.mpr, List.length_range]
      intro j hj
      rw [List.mem_range] at hj
      exact annivLE_of_lt _ _ _ _ (by omega)
    have h2 : b.year + 1 + n = t.year := by omega
    rw [h1, List.countP_cons, List.countP_nil, h2, annivLE_self]
    cases hpl : pairLt (t.month, t.day) (b.month, b.day) <;> simp <;> omega
  · have hyy : b.year = t.year := by
      rcases hle with h | ⟨h, _⟩ <;> omega
    have hpl : pairLt (t.month, t.day) (b.month, b.day) = false := by
      rcases hle with h | ⟨_, h⟩
      · omega
      · unfold pairLt
        simp
        omega
    rw [hpl, hyy]
    simp

/-- C1: for every employee whose birth-date string parses as a valid
calendar date, the age computed on a fixed current date equals
`today.year - birth.year`, decremented by one exactly when
`(today.month, today.day)` is lexicographically below
`(birth.month, birth.day)`; and whenever the birth date is not after
today, this is the conventional whole-years-elapsed value (the count of
elapsed anniversaries), the month/day boundary included. -/
theorem calculate_age_conventional (s : String) (b today : Date)
    (hp : parseDate s = some b) :
    calculate_age s today =
      some ((today.year : Int) - (b.year : Int) -
        (if pairLt (today.month, today.day) (b.month, b.day) then 1 else 0)) ∧
    (dateLE b today →
      calculate_age s today = some ((wholeYearsElapsed b today : Int))) := by
  have hform : calculate_age s today =
      some ((today.year : Int) - (b.year : Int) -
        (if pairLt (today.month, today.day) (b.month, b.day) then 1 else 0)) := by
    unfold calculate_age
    rw [hp]
    cases hpl : pairLt (today.month, today.day) (b.month, b.day) <;> simp [hpl]
  refine ⟨hform, fun hle => ?_⟩
  rw [hform, wholeYearsElapsed_formula b today hle]

/-! ## The grouped, ordered listing (C2) -/

/-- Byte order on strings is total. -/
lemma charListLe_total (a b : List Char) :
    charListLe a b = true ∨ charListLe b a = true := by
  induction a generalizing b with
  | nil => left; rfl
  | cons x xs ih =>
    cases b with
    | nil => right; rfl
    | cons y ys =>
      unfold charListLe
      rcases Nat.lt_trichotomy x.toNat y.toNat with h | h | h
      · left; simp [h]
      · have h1 : ¬ x.toNat < y.toNat := by omega
        have h2 : ¬ y.toNat < x.toNat := by omega
        rcases ih ys with h3 | h3
        · left; simp [h1, h2, h3]
        · right; simp [h1, h2, h3]
      · right; simp [h]

/-- Byte order on strings is transitive. -/
lemma charListLe_trans {a b c : List Char} (h1 : charListLe a b = true)
    (h2 : charListLe b c = true) : charListLe a c = true := by
  induction a generalizing b c with
  | nil => rfl
  | cons x xs ih =>
    cases b with
    | nil => simp [charListLe] at h1
    | cons y ys =>
      cases c with
      | nil => simp [charListLe] at h2
      | cons z zs =>
        unfold charListLe at h1 h2 ⊢
        rcases Nat.lt_trichotomy x.toNat y.toNat with hxy | hxy | hxy <;>
          rcases Nat.lt_trichotomy y.toNat z.toNat with hyz | hyz | hyz
        · simp [show x.toNat < z.toNat by omega]
        · simp [show x.toNat < z.toNat by omega]
        · simp [hxy, show ¬ y.toNat < x.toNat by omega] at h1
          simp [show ¬ y.toNat < z.toNat by omega, hyz] at h2
        · simp [show x.toNat < z.toNat by omega]
        · have hxz : ¬ x.toNat < z.toNat := by omega
          have hzx : ¬ z.toNat < x.toNat := by omega
          simp [show ¬ x.toNat < y.toNat by omega,
            show ¬ y.toNat < x.toNat by omega] at h1
          simp [show ¬ y.toNat < z.toNat by omega,
            show ¬ z.toNat < y.toNat by omega] at h2
          simp [hxz, hzx]
          exact ih h1 h2
        · simp [show ¬ y.toNat < z.toNat by omega, hyz] at h2
        · simp [show ¬ x.toNat < y.toNat by omega, hxy] at h1
        · simp [show ¬ x.toNat < y.toNat by omega, hxy] at h1
        · simp [show ¬ x.toNat < y.toNat by omega, hxy] at h1

/-- The key order used for `ORDER BY full_name` is total. -/
lemma keyLe_total (a b : String × String) (h : keyLe a b = false) :
    keyLe b a = true := by
  unfold keyLe strLe at *
  rcases charListLe_total a.1.data b.1.data with h1 | h1
  · rw [h1] at h; cases h
  · exact h1

/-- The key order used for `ORDER BY full_name` is transitive. -/
lemma keyLe_trans {a b c : String × String} (h1 : keyLe a b = true)
    (h2 : keyLe b c = true) : keyLe a c = true :=
  charListLe_trans h1 h2

/-- Inserting grows the length by one. -/
lemma length_insertLe (le : α → α → Bool) (a : α) (l : List α) :
    (insertLe le a l).length = l.length + 1 := by
  induction l with
  | nil => rfl
  | cons b t ih => unfold insertLe; split <;> simp [ih]

/-- Sorting preserves the length. -/
lemma length_sortLe (le : α → α → Bool) (l : List α) :
    (sortLe le l).length = l.length := by
  induction l with
  | nil => rfl
  | cons a t ih => unfold sortLe; rw [length_insertLe, ih, List.length_cons]

/-- Members of an insertion are the new element or old members. -/
lemma mem_insertLe {le : α → α → Bool} {a x : α} {l : List α}
    (h : x ∈ insertLe le a l) : x = a ∨ x ∈ l := by
  induction l with
  | nil =>
    unfold insertLe at h
    left
    simpa using h
  | cons b t ih =>
    unfold insertLe at h
    split at h
    · simpa using h
    · rcases List.mem_cons.mp h with rfl | h
      · right; exact List.mem_cons_self _ _
      · rcases ih h with h | h
        · left; exact h
        · right; exact List.mem_cons_of_mem _ h

/-- Insertion into a sorted list keeps it sorted, for a total transitive
comparison. -/
lemma pairwise_insertLe (le : α → α → Bool)
    (htot : ∀ a b, le a b = false → le b a = true)
    (htrans : ∀ {a b c}, le a b = true → le b c = true → le a c = true)
    {a : α} {l : List α} (h : l.Pairwise (fun x y => le x y = true)) :
    (insertLe le a l).Pairwise (fun x y => le x y = true) := by
  induction l with
  | nil => simp [insertLe]
  | cons b t ih =>
    rcases List.pairwise_cons.mp h with ⟨hb, ht⟩
    unfold insertLe
    split
    next hab =>
      refine List.pairwise_cons.mpr ⟨?_, h⟩
      intro x hx
      rcases List.mem_cons.mp hx with rfl | hx
      · exact hab
      · exact htrans hab (hb x hx)
    next hab =>
      refine List.pairwise_cons.mpr ⟨?_, ih ht⟩
      intro x hx
      rcases mem_insertLe hx with rfl | hx
      · exact htot _ _ (Bool.eq_false_iff.mpr hab ▸ by
          cases hh : le x b
          · rfl
          · exact absurd hh (by simp [hab]))
      · exact hb x hx

/-- Insertion sort sorts, for a total transitive comparison. -/
lemma pairwise_sortLe (le : α → α → Bool)
    (htot : ∀ a b, le a b = false → le b a = true)
    (htrans : ∀ {a b c}, le a b = true → le b c = true → le a c = true)
    (l : List α) :
    (sortLe le l).Pairwise (fun x y => le x y = true) := by
  induction l with
  | nil => simp [sortLe]
  | cons a t ih => exact pairwise_insertLe le htot htrans ih

/-- On rows with pairwise-distinct keys, `distinctKeys` is just the keys. -/
lemma distinctKeys_of_pairwise {rows : List Employee}
    (h : rows.Pairwise (fun a b => key a ≠ key b)) :
    distinctKeys rows = rows.map key := by
  induction rows with
  | nil => rfl
  | cons e t ih =>
    rcases List.pairwise_cons.mp h with ⟨he, ht⟩
    unfold distinctKeys
    rw [ih ht, List.map_cons]
    congr 1
    refine List.filter_eq_self.mpr ?_
    intro a ha
    rcases List.mem_map.mp ha with ⟨x, hx, rfl⟩
    exact decide_eq_true (Ne.symm (he x hx))

/-- The representative row of a group carries the group's name. -/
lemma groupRep_name (rows : List Employee) (k : String × String) :
    (groupRep rows k).full_name = k.1 := by
  unfold groupRep
  cases hf : rows.find? (fun e => key e = k) with
  | none => rfl
  | some e =>
    have h0 := List.find?_some hf
    simp only [decide_eq_true_eq] at h0
    simp only [Option.getD_some]
    rw [show e.full_name = (key e).1 from rfl, h0]

/-- C2: the listing query groups the stored rows by `(full_name,
birth_date)` only and orders by `full_name` ascending: two rows agreeing on
name and birth date (their genders notwithstanding) yield a single output
row, and rows with pairwise-distinct keys yield one output row each, in
non-decreasing lexicographic name order. -/
theorem listing_grouped_sorted (e1 e2 : Employee) (rows : List Employee)
    (hn : e1.full_name = e2.full_name) (hb : e1.birth_date = e2.birth_date)
    (hdist : rows.Pairwise (fun a b => key a ≠ key b)) :
    (sqlGroupRows [e1, e2]).length = 1 ∧
    (sqlGroupRows rows).length = rows.length ∧
    (sqlGroupRows rows).Pairwise
      (fun a b => strLe a.full_name b.full_name = true) := by
  refine ⟨?_, ?_, ?_⟩
  · have hk : key e2 = key e1 := by
      unfold key; rw [hn, hb]
    have hd : distinctKeys [e1, e2] = [key e1] := by
      unfold distinctKeys distinctKeys distinctKeys
      rw [hk]
      simp
    unfold sqlGroupRows
    rw [hd, List.length_map, length_sortLe]
    rfl
  · unfold sqlGroupRows
    rw [List.length_map, length_sortLe, distinctKeys_of_pairwise hdist,
      List.length_map]
  · unfold sqlGroupRows
    have hs := pairwise_sortLe keyLe keyLe_total (fun {a b c} => keyLe_trans)
      (distinctKeys rows)
    refine List.pairwise_map.mpr (hs.imp ?_)
    intro a b hab
    rw [groupRep_name, groupRep_name]
    exact hab

/-- C2 witness: two rows differing only in gender collapse to one; three
rows with distinct keys are listed in full, sorted by name. -/
theorem listing_grouped_sorted_witness :
    (⟨"Ford Henry A.", "1980-05-15", "Male"⟩ : Employee).full_name =
      (⟨"Ford Henry A.", "1980-05-15", "Female"⟩ : Employee).full_name ∧
    (⟨"Ford Henry A.", "1980-05-15", "Male"⟩ : Employee).birth_date =
      (⟨"Ford Henry A.", "1980-05-15", "Female"⟩ : Employee).birth_date ∧
    ([⟨"Smith John A.", "1990-01-01", "Male"⟩,
      ⟨"Brown Mary B.", "1991-02-02", "Female"⟩,
      ⟨"Davis Karen C.", "1992-03-03", "Female"⟩] :
        List Employee).Pairwise (fun a b => key a ≠ key b) ∧
    ((sqlGroupRows [⟨"Ford Henry A.", "1980-05-15", "Male"⟩,
        ⟨"Ford Henry A.", "1980-05-15", "Female"⟩]).length = 1 ∧
     (sqlGroupRows [⟨"Smith John A.", "1990-01-01", "Male"⟩,
        ⟨"Brown Mary B.", "1991-02-02", "Female"⟩,
        ⟨"Davis Karen C.", "1992-03-03", "Female"⟩]).length = 3 ∧
     (sqlGroupRows [⟨"Smith John A.", "1990-01-01", "Male"⟩,
        ⟨"Brown Mary B.", "1991-02-02", "Female"⟩,
        ⟨"Davis Karen C.", "1992-03-03", "Female"⟩]).Pairwise
       (fun a b => strLe a.full_name b.full_name = true)) :=
  ⟨rfl, rfl, by decide,
   listing_grouped_sorted _ _ _ rfl rfl (by decide)⟩

/-! ## Validity of the generated birth dates (C8) -/

/-- Every year the generator can draw prints as four plain digits. -/
lemma yearChk_ok : ∀ k ∈ List.range 56, numChk (Nat.repr (1950 + k)).data (1950 + k) 4 = true := by
  decide

/-- Every month or day the generator can draw prints as two digits under
`f"{n:02d}"`. -/
lemma pad2Chk_ok : ∀ k ∈ List.range 28, numChk (pad2 (1 + k)).data (1 + k) 2 = true := by
  decide

/-- Splitting a dash-free prefix followed by a dash peels off the prefix. -/
lemma splitDashes_append (a r : List Char) (h : '-' ∉ a) :
    splitDashes (a ++ '-' :: r) = a :: splitDashes r := by
  induction a with
  | nil => simp [splitDashes]
  | cons c t ih =>
    have hc : ¬ c = '-' := fun hcc => h (hcc ▸ List.mem_cons_self _ _)
    have ht : '-' ∉ t := fun htt => h (List.mem_cons_of_mem _ htt)
    rw [List.cons_append]
    simp only [splitDashes, if_neg hc, ih ht, consHead]

/-- Splitting a dash-free list yields that one part. -/
lemma splitDashes_no_dash (a : List Char) (h : '-' ∉ a) :
    splitDashes a = [a] := by
  induction a with
  | nil => rfl
  | cons c t ih =>
    have hc : ¬ c = '-' := fun hcc => h (hcc ▸ List.mem_cons_self _ _)
    have ht : '-' ∉ t := fun htt => h (List.mem_cons_of_mem _ htt)
    simp only [splitDashes, if_neg hc, ih ht, consHead]

/-- February always has at least 28 days, the other months more. -/
lemma monthDays_ge (leap : Bool) (m : Nat) : 28 ≤ monthDays leap m := by
  unfold monthDays
  split
  · split <;> omega
  · split <;> omega

/-- Round trip: every birth-date string the generator can format parses
back to the same calendar date. -/
lemma parseDate_fmtBirthDate (y m d : Nat)
    (hy1 : 1950 ≤ y) (hy2 : y ≤ 2005) (hm1 : 1 ≤ m) (hm2 : m ≤ 12)
    (hd1 : 1 ≤ d) (hd2 : d ≤ 28) :
    parseDate (fmtBirthDate y m d) = some ⟨y, m, d⟩ := by
  have hy := yearChk_ok (y - 1950) (List.mem_range.mpr (by omega))
  have hm := pad2Chk_ok (m - 1) (List.mem_range.mpr (by omega))
  have hd := pad2Chk_ok (d - 1) (List.mem_range.mpr (by omega))
  rw [show 1950 + (y - 1950) = y by omega] at hy
  rw [show 1 + (m - 1) = m by omega] at hm
  rw [show 1 + (d - 1) = d by omega] at hd
  unfold numChk at hy hm hd
  simp only [Bool.and_eq_true, beq_iff_eq, List.all_eq_true, bne_iff_ne] at hy hm hd
  obtain ⟨⟨⟨hylen, hydig⟩, hyval⟩, hyall⟩ := hy
  obtain ⟨⟨⟨hmlen, hmdig⟩, hmval⟩, hmall⟩ := hm
  obtain ⟨⟨⟨hdlen, hddig⟩, hdval⟩, hdall⟩ := hd
  have hydash : '-' ∉ (Nat.repr y).data := fun hmem => (hyall _ hmem) rfl
  have hmdash : '-' ∉ (pad2 m).data := fun hmem => (hmall _ hmem) rfl
  have hddash : '-' ∉ (pad2 d).data := fun hmem => (hdall _ hmem) rfl
  unfold parseDate fmtBirthDate
  have hdata : (Nat.repr y ++ "-" ++ pad2 m ++ "-" ++ pad2 d).data =
      (Nat.repr y).data ++ '-' :: ((pad2 m).data ++ '-' :: (pad2 d).data) := by
    simp [String.data_append]
  rw [hdata, splitDashes_append _ _ hydash, splitDashes_append _ _ hmdash,
    splitDashes_no_dash _ hddash]
  simp only [parseParts]
  rw [if_pos ⟨hylen, hydig, by omega, by omega, hmdig, by omega, by omega, hddig⟩]
  simp only [hyval, hmval, hdval]
  rw [if_pos ⟨by omega, hm1, hm2, hd1,
    le_trans hd2 (monthDays_ge (isLeapYear y) m)⟩]

/-- Bounds of the three `randint` draws of a generated birth date. -/
lemma genBirthDate_bounds (r : RNG) :
    ∃ y m d, 1950 ≤ y ∧ y ≤ 2005 ∧ 1 ≤ m ∧ m ≤ 12 ∧ 1 ≤ d ∧ d ≤ 28 ∧
      (genBirthDate r).1 = fmtBirthDate y m d := by
  refine ⟨1950 + r.tape r.pos % 56, 1 + r.tape (r.pos + 1) % 12,
    1 + r.tape (r.pos + 2) % 28, ?_, ?_, ?_, ?_, ?_, ?_, rfl⟩
  · omega
  · have := Nat.mod_lt (r.tape r.pos) (show 0 < 56 by omega)
    omega
  · omega
  · have := Nat.mod_lt (r.tape (r.pos + 1)) (show 0 < 12 by omega)
    omega
  · omega
  · have := Nat.mod_lt (r.tape (r.pos + 2)) (show 0 < 28 by omega)
    omega

/-- A successfully parsed birth date never hits the parse-failure branch of
the age computation. -/
lemma calculate_age_isSome {s : String} {b : Date}
    (h : parseDate s = some b) (today : Date) :
    (calculate_age s today).isSome = true := by
  unfold calculate_age
  rw [h]
  cases hpl : pairLt (today.month, today.day) (b.month, b.day) <;> simp [hpl]

/-- C8: every birth date produced by the generator — in the main loop and
in the `F` batch alike — has year in `[1950, 2005]`, month in `[1, 12]`,
day in `[1, 28]`, is formatted as a zero-padded ISO `YYYY-MM-DD` string,
parses back to the same valid calendar date, and therefore can never make
the age computation's parse-failure branch fire. -/
theorem generated_birth_dates_valid (r : RNG) :
    (∃ y m d, 1950 ≤ y ∧ y ≤ 2005 ∧ 1 ≤ m ∧ m ≤ 12 ∧ 1 ≤ d ∧ d ≤ 28 ∧
      (genOne r).1.birth_date = fmtBirthDate y m d ∧
      parseDate ((genOne r).1.birth_date) = some ⟨y, m, d⟩ ∧
      ∀ today, (calculate_age ((genOne r).1.birth_date) today).isSome = true) ∧
    (∃ y m d, 1950 ≤ y ∧ y ≤ 2005 ∧ 1 ≤ m ∧ m ≤ 12 ∧ 1 ≤ d ∧ d ≤ 28 ∧
      (genFOne r).1.birth_date = fmtBirthDate y m d ∧
      parseDate ((genFOne r).1.birth_date) = some ⟨y, m, d⟩ ∧
      ∀ today, (calculate_age ((genFOne r).1.birth_date) today).isSome = true) := by
  constructor
  · have hbd : (genOne r).1.birth_date = (genBirthDate ⟨r.tape, r.pos + 4⟩).1 := rfl
    obtain ⟨y, m, d, h1, h2, h3, h4, h5, h6, h7⟩ :=
      genBirthDate_bounds ⟨r.tape, r.pos + 4⟩
    have hp : parseDate ((genOne r).1.birth_date) = some ⟨y, m, d⟩ := by
      rw [hbd, h7]
      exact parseDate_fmtBirthDate y m d h1 h2 h3 h4 h5 h6
    exact ⟨y, m, d, h1, h2, h3, h4, h5, h6, by rw [hbd, h7], hp,
      fun today => calculate_age_isSome hp today⟩
  · have hbd : (genFOne r).1.birth_date = (genBirthDate ⟨r.tape, r.pos + 3⟩).1 := rfl
    obtain ⟨y, m, d, h1, h2, h3, h4, h5, h6, h7⟩ :=
      genBirthDate_bounds ⟨r.tape, r.pos + 3⟩
    have hp : parseDate ((genFOne r).1.birth_date) = some ⟨y, m, d⟩ := by
      rw [hbd, h7]
      exact parseDate_fmtBirthDate y m d h1 h2 h3 h4 h5 h6
    exact ⟨y, m, d, h1, h2, h3, h4, h5, h6, by rw [hbd, h7], hp,
      fun today => calculate_age_isSome hp today⟩

/-! ## Random bulk generation and batching (C3) -/

/-- A `random.choice` from a non-empty list yields a member. -/
lemma getD_mem {xs : List String} (h : xs ≠ []) (i : Nat) :
    xs.getD (i % xs.length) "" ∈ xs := by
  have hl : 0 < xs.length := List.length_pos.mpr h
  have hi : i % xs.length < xs.length := Nat.mod_lt _ hl
  rw [List.getD_eq_getElem _ _ hi]
  exact List.getElem_mem hi

/-- Every employee of the `F` batch matches the pattern. -/
lemma genFOne_isF (r : RNG) : isFPattern (genFOne r).1 = true := by
  have hname : (genFOne r).1.full_name =
      "F" ++ f_suffixes.getD (r.tape (r.pos + 1) % f_suffixes.length) "" ++ " " ++
        first_names_male.getD (r.tape r.pos % first_names_male.length) "" ++ " " ++
        middle_names.getD (r.tape (r.pos + 2) % middle_names.length) "" := rfl
  have hg : (genFOne r).1.gender = "Male" := rfl
  unfold isFPattern
  rw [hg, hname, Bool.and_eq_true]
  refine ⟨rfl, ?_⟩
  rw [List.any_eq_true]
  refine ⟨_, getD_mem (by decide) (r.tape (r.pos + 1)), ?_⟩
  rw [List.any_eq_true]
  refine ⟨_, getD_mem (by decide) (r.tape r.pos), ?_⟩
  rw [List.any_eq_true]
  refine ⟨_, getD_mem (by decide) (r.tape (r.pos + 2)), ?_⟩
  exact beq_iff_eq.mpr rfl

/-- Every member of the generated `F` batch comes from `genFOne`. -/
lemma genF_mem {n : Nat} {r : RNG} :
    ∀ e ∈ (genF n r).1, ∃ r', e = (genFOne r').1 := by
  induction n generalizing r with
  | zero => intro e he; simp [genF] at he
  | succ k ih =>
    intro e he
    have hstep : (genF (k + 1) r).1 =
        (genFOne r).1 :: (genF k (genFOne r).2).1 := rfl
    rw [hstep, List.mem_cons] at he
    rcases he with rfl | he
    · exact ⟨r, rfl⟩
    · exact ih _ he

/-- Every member of the main generation comes from `genOne`. -/
lemma genMain_mem {n : Nat} {r : RNG} :
    ∀ e ∈ (genMain n r).1, ∃ r', e = (genOne r').1 := by
  induction n generalizing r with
  | zero => intro e he; simp [genMain] at he
  | succ k ih =>
    intro e he
    have hstep : (genMain (k + 1) r).1 =
        (genOne r).1 :: (genMain k (genOne r).2).1 := rfl
    rw [hstep, List.mem_cons] at he
    rcases he with rfl | he
    · exact ⟨r, rfl⟩
    · exact ih _ he

/-- The main loop generates exactly `count` records. -/
lemma genMain_length (n : Nat) (r : RNG) : (genMain n r).1.length = n := by
  induction n generalizing r with
  | zero => rfl
  | succ k ih =>
    have hstep : (genMain (k + 1) r).1 =
        (genOne r).1 :: (genMain k (genOne r).2).1 := rfl
    rw [hstep, List.length_cons, ih]

/-- The `F` loop generates exactly `n` records. -/
lemma genF_length (n : Nat) (r : RNG) : (genF n r).1.length = n := by
  induction n generalizing r with
  | zero => rfl
  | succ k ih =>
    have hstep : (genF (k + 1) r).1 =
        (genFOne r).1 :: (genF k (genFOne r).2).1 := rfl
    rw [hstep, List.length_cons, ih]

/-- No last name of the main pool is empty or starts with `F`. -/
lemma last_names_not_F :
    ∀ s ∈ last_names, s.data ≠ [] ∧ s.data.head? ≠ some 'F' := by
  decide

/-- The head of an appended string is the head of its non-empty left part. -/
lemma strHead_append (a b : String) (h : a.data ≠ []) :
    (a ++ b).data.head? = a.data.head? := by
  rw [String.data_append, List.head?_append]
  cases hd : a.data with
  | nil => exact absurd hd h
  | cons c t => rfl

/-- Appending on the right keeps a string non-empty. -/
lemma strApp_ne (a b : String) (h : a.data ≠ []) : (a ++ b).data ≠ [] := by
  rw [String.data_append]
  intro hc
  exact h (List.append_eq_nil.mp hc).1

/-- The full name of a main-loop record decomposes into a pool last name
followed by the rest. -/
lemma genOne_last (r : RNG) :
    ∃ L F M, L ∈ last_names ∧
      (genOne r).1.full_name = L ++ " " ++ F ++ " " ++ M := by
  exact ⟨last_names.getD (r.tape (r.pos + 2) % last_names.length) "", _, _,
    getD_mem (by decide) _, rfl⟩

/-- No main-loop record matches the `F` pattern: its last name comes from
the ten-name pool, none of which starts with `F`. -/
lemma genOne_notF (r : RNG) : isFPattern (genOne r).1 = false := by
  cases hF : isFPattern (genOne r).1
  · rfl
  exfalso
  obtain ⟨L, F, M, hmem, hname⟩ := genOne_last r
  obtain ⟨hLne, hLhead⟩ := last_names_not_F L hmem
  unfold isFPattern at hF
  simp only [Bool.and_eq_true, List.any_eq_true, beq_iff_eq] at hF
  obtain ⟨-, suf, -, fn, -, mi, -, heq⟩ := hF
  rw [hname] at heq
  have h1 := congrArg (fun s : String => s.data.head?) heq
  simp only at h1
  rw [strHead_append _ M (strApp_ne _ _ (strApp_ne _ _ (strApp_ne _ _ hLne))),
    strHead_append _ " " (strApp_ne _ _ (strApp_ne _ _ hLne)),
    strHead_append _ F (strApp_ne _ _ hLne),
    strHead_append L " " hLne] at h1
  have hFne : ("F" : String).data ≠ [] := by decide
  rw [strHead_append _ mi
      (strApp_ne _ _ (strApp_ne _ _ (strApp_ne _ _ (strApp_ne _ _ hFne)))),
    strHead_append _ " " (strApp_ne _ _ (strApp_ne _ _ (strApp_ne _ _ hFne))),
    strHead_append _ fn (strApp_ne _ _ (strApp_ne _ _ hFne)),
    strHead_append _ " " (strApp_ne _ _ hFne),
    strHead_append "F" suf hFne] at h1
  exact hLhead h1

/-- Full description of the buffering: the chunks and the leftover
reassemble into the input, the chunks all have size 10,000, and the counts
come from division by 10,000. -/
lemma chunkFlush_spec : ∀ (es buf : List Employee), buf.length < 10000 →
    (chunkFlush buf es).1.flatten ++ (chunkFlush buf es).2 = buf ++ es ∧
    (∀ c ∈ (chunkFlush buf es).1, c.length = 10000) ∧
    (chunkFlush buf es).1.length = (buf.length + es.length) / 10000 ∧
    (chunkFlush buf es).2.length = (buf.length + es.length) % 10000 := by
  intro es
  induction es with
  | nil =>
    intro buf h
    refine ⟨by simp [chunkFlush], by simp [chunkFlush], ?_, ?_⟩
    · show ([] : List (List Employee)).length = (buf.length + ([] : List Employee).length) / 10000
      simp only [List.length_nil, Nat.add_zero]
      omega
    · show buf.length = (buf.length + ([] : List Employee).length) % 10000
      simp only [List.length_nil, Nat.add_zero]
      omega
  | cons e es ih =>
    intro buf h
    have hlen : (buf ++ [e]).length = buf.length + 1 := by
      simp
    have hdef : chunkFlush buf (e :: es) =
        if 10000 ≤ (buf ++ [e]).length then
          ((buf ++ [e]) :: (chunkFlush [] es).1, (chunkFlush [] es).2)
        else chunkFlush (buf ++ [e]) es := rfl
    by_cases hge : 10000 ≤ (buf ++ [e]).length
    · rw [hdef, if_pos hge]
      obtain ⟨ih1, ih2, ih3, ih4⟩ := ih []
        (by simp only [List.length_nil]; omega)
      simp only [List.length_nil, Nat.zero_add] at ih3 ih4
      refine ⟨?_, ?_, ?_, ?_⟩
      · show ((buf ++ [e]) :: (chunkFlush [] es).1).flatten ++ _ = _
        rw [List.flatten_cons, List.append_assoc, ih1]
        simp
      · intro c hc
        rcases List.mem_cons.mp hc with rfl | hc
        · omega
        · exact ih2 c hc
      · show ((buf ++ [e]) :: (chunkFlush [] es).1).length = _
        rw [List.length_cons, ih3, List.length_cons]
        omega
      · rw [ih4, List.length_cons]
        omega
    · rw [hdef, if_neg hge]
      obtain ⟨ih1, ih2, ih3, ih4⟩ := ih (buf ++ [e]) (by omega)
      rw [hlen] at ih3 ih4
      refine ⟨?_, ih2, ?_, ?_⟩
      · rw [ih1]
        simp
      · rw [ih3, List.length_cons]
        omega
      · rw [ih4, List.length_cons]
        omega

/-- The insert events of a run of batch flushes carry exactly the flushed
chunks, in order. -/
lemma filterMap_batchEvents (cs : List (List Employee)) :
    ((cs.map batchEvents).flatten.filterMap insertedBatch) = cs := by
  induction cs with
  | nil => rfl
  | cons c t ih =>
    simp only [List.map_cons, List.flatten_cons, List.filterMap_append, ih]
    rfl

/-- C3: with the table present, `generate_random_employees count` succeeds
and inserts, via batch flushes of 10,000 plus a flush of the remainder,
exactly `count` main records followed by one final batch of exactly 100
records matching the `F` pattern with gender `Male`; the store ends with
`count + 100` more rows, of which exactly 100 more match the `F` pattern. -/
theorem generate_random_employees_spec (db : DB) (count : Nat) (r : RNG)
    (h : db.tableExists = true) :
    ∃ db' evs r',
      generate_random_employees db count r = Except.ok (db', evs, r') ∧
      ∃ main fes : List Employee,
        main.length = count ∧
        fes.length = 100 ∧
        db'.rows = db.rows ++ main ++ fes ∧
        (∀ e ∈ fes, isFPattern e = true) ∧
        db'.rows.countP isFPattern = db.rows.countP isFPattern + 100 ∧
        db'.rows.length = db.rows.length + count + 100 ∧
        (evs.filterMap insertedBatch).map List.length =
          (List.replicate (count / 10000) 10000 ++
            (if count % 10000 = 0 then [] else [count % 10000])) ++ [100] ∧
        (evs.filterMap insertedBatch).flatten = main ++ fes := by
  obtain ⟨hc1, hc2, hc3, hc4⟩ := chunkFlush_spec (genMain count r).1 []
    (by simp only [List.length_nil]; omega)
  simp only [List.nil_append, List.length_nil, Nat.zero_add] at hc1 hc3 hc4
  rw [genMain_length] at hc3 hc4
  have hfall : ∀ e ∈ (genF 100 (genMain count r).2).1, isFPattern e = true := by
    intro e he
    obtain ⟨r', rfl⟩ := genF_mem e he
    exact genFOne_isF r'
  have hmain0 : (genMain count r).1.countP isFPattern = 0 := by
    rw [List.countP_eq_zero]
    intro e he
    obtain ⟨r', rfl⟩ := genMain_mem e he
    rw [genOne_notF]
    exact Bool.false_ne_true
  have hflat : ((chunkFlush [] (genMain count r).1).1 ++
      (if ((chunkFlush [] (genMain count r).1).2).isEmpty then []
        else [(chunkFlush [] (genMain count r).1).2])).flatten =
      (genMain count r).1 := by
    rw [List.flatten_append]
    by_cases hre : ((chunkFlush [] (genMain count r).1).2).isEmpty
    · rw [if_pos hre]
      have hrem := List.isEmpty_iff.mp hre
      rw [hrem] at hc1
      simpa using hc1
    · rw [if_neg hre]
      simpa using hc1
  unfold generate_random_employees
  rw [h]
  simp only [if_true]
  refine ⟨_, _, _, rfl, (genMain count r).1, (genF 100 (genMain count r).2).1,
    genMain_length count r, genF_length 100 _, ?_, hfall, ?_, ?_, ?_, ?_⟩
  · show db.rows ++ ((_ ++ [(genF 100 (genMain count r).2).1]).flatten) = _
    rw [List.flatten_append, hflat]
    simp [List.append_assoc]
  · show (db.rows ++ ((_ ++ [(genF 100 (genMain count r).2).1]).flatten)).countP _ = _
    rw [List.flatten_append, hflat]
    simp only [List.flatten_cons, List.flatten_nil, List.append_nil]
    rw [← List.append_assoc, List.countP_append, List.countP_append, hmain0,
      List.countP_eq_length.mpr hfall, genF_length]
  · show (db.rows ++ ((_ ++ [(genF 100 (genMain count r).2).1]).flatten)).length = _
    rw [List.flatten_append, hflat]
    simp only [List.flatten_cons, List.flatten_nil, List.append_nil]
    rw [← List.append_assoc, List.length_append, List.length_append,
      genMain_length, genF_length]
  · rw [List.filterMap_append]
    have hout : List.filterMap insertedBatch
        [Event.out "Finished generating random employees."] = [] := rfl
    have h1 : List.map List.length ((chunkFlush [] (genMain count r).1).1) =
        List.replicate (count / 10000) 10000 := by
      refine List.eq_replicate_iff.mpr ⟨?_, ?_⟩
      · rw [List.length_map, hc3]
      · intro b hb
        rcases List.mem_map.mp hb with ⟨c, hc, rfl⟩
        exact hc2 c hc
    have h2 : List.map List.length
        (if ((chunkFlush [] (genMain count r).1).2).isEmpty then []
          else [(chunkFlush [] (genMain count r).1).2]) =
        (if count % 10000 = 0 then [] else [count % 10000]) := by
      by_cases hre : ((chunkFlush [] (genMain count r).1).2).isEmpty
      · rw [if_pos hre]
        rw [List.isEmpty_iff] at hre
        rw [if_pos (by rw [← hc4, hre]; rfl)]
        rfl
      · rw [if_neg hre]
        rw [if_neg (by
          rw [← hc4]
          intro hzero
          exact hre (List.isEmpty_iff_length_eq_zero.mpr hzero))]
        rw [List.map_singleton, hc4]
    have h3 : List.map List.length [(genF 100 (genMain count r).2).1] =
        [100] := by
      rw [List.map_singleton, genF_length]
    rw [hout, List.append_nil, filterMap_batchEvents, List.map_append,
      List.map_append, h1, h2, h3]
  · rw [List.filterMap_append]
    have hout : List.filterMap insertedBatch
        [Event.out "Finished generating random employees."] = [] := rfl
    rw [hout, List.append_nil, filterMap_batchEvents, List.flatten_append, hflat]
    simp

/-- C3 witness: a concrete run on a present table (count 3, zero tape). -/
theorem generate_random_employees_spec_witness :
    (DB.mk true [] false).tableExists = true ∧
    (∃ db' evs r',
      generate_random_employees ⟨true, [], false⟩ 3 ⟨fun _ => 0, 0⟩ =
        Except.ok (db', evs, r') ∧
      ∃ main fes : List Employee,
        main.length = 3 ∧
        fes.length = 100 ∧
        db'.rows = ([] : List Employee) ++ main ++ fes ∧
        (∀ e ∈ fes, isFPattern e = true) ∧
        db'.rows.countP isFPattern =
          ([] : List Employee).countP isFPattern + 100 ∧
        db'.rows.length = ([] : List Employee).length + 3 + 100 ∧
        (evs.filterMap insertedBatch).map List.length =
          (List.replicate (3 / 10000) 10000 ++
            (if 3 % 10000 = 0 then [] else [3 % 10000])) ++ [100] ∧
        (evs.filterMap insertedBatch).flatten = main ++ fes) :=
  ⟨rfl, generate_random_employees_spec ⟨true, [], false⟩ 3 ⟨fun _ => 0, 0⟩ rfl⟩

/-- C1 witness, at the exact boundary: born 1980-05-15, checked on
2026-05-14 (one day before the anniversary). -/
theorem calculate_age_conventional_witness :
    parseDate "1980-05-15" = some ⟨1980, 5, 15⟩ ∧
    dateLE ⟨1980, 5, 15⟩ ⟨2026, 5, 14⟩ ∧
    (calculate_age "1980-05-15" ⟨2026, 5, 14⟩ =
      some (((2026 : Nat) : Int) - ((1980 : Nat) : Int) -
        (if pairLt (5, 14) (5, 15) then 1 else 0)) ∧
     (dateLE ⟨1980, 5, 15⟩ ⟨2026, 5, 14⟩ →
        calculate_age "1980-05-15" ⟨2026, 5, 14⟩ =
          some ((wholeYearsElapsed ⟨1980, 5, 15⟩ ⟨2026, 5, 14⟩ : Int)))) :=
  ⟨by decide, by decide,
   calculate_age_conventional "1980-05-15" ⟨1980, 5, 15⟩ ⟨2026, 5, 14⟩ (by decide)⟩

/-! ## Idempotence of the schema statements (C9) -/

/-- `optimize_database` on a present table: the index is (re)created
idempotently and the success message printed. -/
lemma optimize_ok_of (db : DB) (h : db.tableExists = true) :
    optimize_database db = Except.ok ({ db with indexExists := true },
      [Event.sqlCreateIndex,
       Event.out "Database optimized with index on gender and full_name."]) := by
  unfold optimize_database
  rw [if_pos h]

/-- C9: `CREATE INDEX IF NOT EXISTS` and `CREATE TABLE IF NOT EXISTS` are
idempotent: a second `optimize_database` on the state a first successful
call produced raises no error and returns the same state and output, and
`create_table` twice leaves the same table state as once. -/
theorem optimize_create_idempotent (db db1 : DB) (evs : List Event)
    (h : optimize_database db = Except.ok (db1, evs)) :
    optimize_database db1 = Except.ok (db1, evs) ∧
    (create_table (create_table db).1).1 = (create_table db).1 := by
  refine ⟨?_, rfl⟩
  unfold optimize_database at h
  by_cases ht : db.tableExists = true
  · rw [if_pos ht] at h
    injection h with h'
    injection h' with h1 h2
    rw [← h1, ← h2]
    rw [optimize_ok_of _ (show ({ db with indexExists := true }).tableExists = true from ht)]
  · rw [if_neg ht] at h
    exact Except.noConfusion h

/-- C9 witness: a present table with no index yet. -/
theorem optimize_create_idempotent_witness :
    optimize_database ⟨true, [], false⟩ = Except.ok (⟨true, [], true⟩,
      [Event.sqlCreateIndex,
       Event.out "Database optimized with index on gender and full_name."]) ∧
    (optimize_database ⟨true, [], true⟩ = Except.ok (⟨true, [], true⟩,
      [Event.sqlCreateIndex,
       Event.out "Database optimized with index on gender and full_name."]) ∧
     (create_table (create_table ⟨true, [], false⟩).1).1 =
       (create_table ⟨true, [], false⟩).1) :=
  ⟨rfl, optimize_create_idempotent ⟨true, [], false⟩ ⟨true, [], true⟩ _ rfl⟩

/-! ## Mode 2 with missing arguments (C6) -/

/-- C6: mode 2 invoked with fewer than three positional arguments prints
the usage line, leaves the store untouched, issues no insert, closes the
connection, and exits without error. -/
theorem mode2_missing_args (args : List String) (db : DB) (today : Date)
    (clock : Nat → ℚ) (r : RNG) (h : args.length < 3) :
    runMain ("2" :: args) db today clock r =
      ⟨db, [Event.out usage2Line, Event.closeConn], Except.ok ()⟩ := by
  rcases args with _ | ⟨a, _ | ⟨b, _ | ⟨c, rest⟩⟩⟩
  · rfl
  · rfl
  · rfl
  · exfalso
    simp only [List.length_cons] at h
    omega

/-- C6 witness: mode 2 with no arguments at all. -/
theorem mode2_missing_args_witness :
    ([] : List String).length < 3 ∧
    runMain ["2"] ⟨true, [], false⟩ ⟨2026, 10, 12⟩ (fun _ => 0) ⟨fun _ => 0, 0⟩ =
      ⟨⟨true, [], false⟩, [Event.out usage2Line, Event.closeConn],
       Except.ok ()⟩ :=
  ⟨by decide, mode2_missing_args [] _ _ _ _ (by decide)⟩

/-! ## Mode 6: index creation and the timed searches (C4, C10) -/

/-- A timed search on a present table: the elapsed time is the difference
of the two clock readings and the two lines are printed. -/
lemma search_ok (db : DB) (clock : Nat → ℚ) (k : Nat)
    (h : db.tableExists = true) :
    search_male_f_lastname db clock k = Except.ok (clock (k + 1) - clock k,
      searchEvents (searchRows db.rows).length (clock (k + 1) - clock k)) := by
  unfold search_male_f_lastname
  rw [if_pos h]

/-- The full event list of a successful mode-6 invocation. -/
lemma mode6_trace (db : DB) (today : Date) (clock : Nat → ℚ) (r : RNG)
    (h : db.tableExists = true) (hnz : ¬ clock 3 - clock 2 = 0) :
    runMain ["6"] db today clock r =
      ⟨{ db with indexExists := true },
       [Event.sqlCreateIndex,
        Event.out "Database optimized with index on gender and full_name.",
        Event.out "Running performance test before and after optimization...",
        Event.out "\nBefore optimization:"] ++
        searchEvents (searchRows db.rows).length (clock 1 - clock 0) ++
        [Event.out "\nAfter optimization:"] ++
        searchEvents (searchRows db.rows).length (clock 3 - clock 2) ++
        [Event.out (reportLine (clock 1 - clock 0) (clock 3 - clock 2)),
         Event.closeConn],
       Except.ok ()⟩ := by
  have h6 : ({ db with indexExists := true }).tableExists = true := h
  unfold runMain dispatch
  simp [optimize_ok_of db h,
    search_ok { db with indexExists := true } clock 0 h6,
    search_ok { db with indexExists := true } clock 2 h6,
    hnz, searchRows, searchEvents]

/-- C4: in mode 6 the composite index is created first — before either
timed search of the invocation — then the search runs twice and the
improvement and speedup are reported: the single index-creation statement
precedes every search statement in the event trace, so the "before
optimization" measurement is taken with the index already in place. -/
theorem mode6_index_before_searches (db : DB) (today : Date)
    (clock : Nat → ℚ) (r : RNG) (h : db.tableExists = true)
    (hnz : ¬ clock 3 - clock 2 = 0) :
    (runMain ["6"] db today clock r).events.countP isCreateIndexEv = 1 ∧
    (runMain ["6"] db today clock r).events.countP isSearchEv = 2 ∧
    ((runMain ["6"] db today clock r).events.takeWhile
      (fun e => !isSearchEv e)).countP isCreateIndexEv = 1 ∧
    Event.out (reportLine (clock 1 - clock 0) (clock 3 - clock 2)) ∈
      (runMain ["6"] db today clock r).events ∧
    (runMain ["6"] db today clock r).result = Except.ok () := by
  rw [mode6_trace db today clock r h hnz]
  refine ⟨?_, ?_, ?_, ?_, rfl⟩ <;>
    simp [searchEvents, isCreateIndexEv, isSearchEv, List.countP_cons,
      List.takeWhile]

/-- C4 witness: a present table and a strictly increasing clock. -/
theorem mode6_index_before_searches_witness :
    (DB.mk true [] false).tableExists = true ∧
    ¬ ((fun n => (n : ℚ)) 3 - (fun n => (n : ℚ)) 2 = 0) ∧
    ((runMain ["6"] ⟨true, [], false⟩ ⟨2026, 10, 12⟩ (fun n => (n : ℚ))
        ⟨fun _ => 0, 0⟩).events.countP isCreateIndexEv = 1 ∧
     (runMain ["6"] ⟨true, [], false⟩ ⟨2026, 10, 12⟩ (fun n => (n : ℚ))
        ⟨fun _ => 0, 0⟩).events.countP isSearchEv = 2) :=
  ⟨rfl, by norm_num,
   (mode6_index_before_searches ⟨true, [], false⟩ ⟨2026, 10, 12⟩
      (fun n => (n : ℚ)) ⟨fun _ => 0, 0⟩ rfl (by norm_num)).1,
   (mode6_index_before_searches ⟨true, [], false⟩ ⟨2026, 10, 12⟩
      (fun n => (n : ℚ)) ⟨fun _ => 0, 0⟩ rfl (by norm_num)).2.1⟩

/-- C10: the mode-6 report divides `before_time` by `after_time` with no
guard: whenever the second timed search measures an elapsed time of
exactly zero, the invocation ends in the float division-by-zero error —
raised only after both searches have run, and the report line is never
printed. -/
theorem mode6_zero_after_divzero (db : DB) (today : Date)
    (clock : Nat → ℚ) (r : RNG) (h : db.tableExists = true)
    (hz : clock 3 - clock 2 = 0) :
    runMain ["6"] db today clock r =
      ⟨{ db with indexExists := true },
       [Event.sqlCreateIndex,
        Event.out "Database optimized with index on gender and full_name.",
        Event.out "Running performance test before and after optimization...",
        Event.out "\nBefore optimization:"] ++
        searchEvents (searchRows db.rows).length (clock 1 - clock 0) ++
        [Event.out "\nAfter optimization:"] ++
        searchEvents (searchRows db.rows).length (clock 3 - clock 2) ++
        [Event.closeConn],
       Except.error divZeroErr⟩ ∧
    (runMain ["6"] db today clock r).events.countP isSearchEv = 2 := by
  have htr : runMain ["6"] db today clock r =
      ⟨{ db with indexExists := true },
       [Event.sqlCreateIndex,
        Event.out "Database optimized with index on gender and full_name.",
        Event.out "Running performance test before and after optimization...",
        Event.out "\nBefore optimization:"] ++
        searchEvents (searchRows db.rows).length (clock 1 - clock 0) ++
        [Event.out "\nAfter optimization:"] ++
        searchEvents (searchRows db.rows).length (clock 3 - clock 2) ++
        [Event.closeConn],
       Except.error divZeroErr⟩ := by
    have h6 : ({ db with indexExists := true }).tableExists = true := h
    unfold runMain dispatch
    simp [optimize_ok_of db h,
      search_ok { db with indexExists := true } clock 0 h6,
      search_ok { db with indexExists := true } clock 2 h6,
      hz, searchRows, searchEvents]
  refine ⟨htr, ?_⟩
  rw [htr]
  simp [searchEvents, isSearchEv, List.countP_cons]

/-- C10 witness: a constant clock, so both elapsed times are zero. -/
theorem mode6_zero_after_divzero_witness :
    (DB.mk true [] false).tableExists = true ∧
    ((fun _ => (0 : ℚ)) 3 - (fun _ => (0 : ℚ)) 2 = 0) ∧
    ((runMain ["6"] ⟨true, [], false⟩ ⟨2026, 10, 12⟩ (fun _ => (0 : ℚ))
        ⟨fun _ => 0, 0⟩).result = Except.error divZeroErr ∧
     (runMain ["6"] ⟨true, [], false⟩ ⟨2026, 10, 12⟩ (fun _ => (0 : ℚ))
        ⟨fun _ => 0, 0⟩).events.countP isSearchEv = 2) :=
  ⟨rfl, by norm_num,
   by rw [(mode6_zero_after_divzero ⟨true, [], false⟩ ⟨2026, 10, 12⟩
        (fun _ => (0 : ℚ)) ⟨fun _ => 0, 0⟩ rfl (by norm_num)).1],
   (mode6_zero_after_divzero ⟨true, [], false⟩ ⟨2026, 10, 12⟩
      (fun _ => (0 : ℚ)) ⟨fun _ => 0, 0⟩ rfl (by norm_num)).2⟩

/-! ## The connection is closed exactly once (C7) -/

/-- No event of a timed search closes the connection. -/
lemma searchEvents_no_close (n : Nat) (q : ℚ) :
    ∀ e ∈ searchEvents n q, isCloseEv e = false := by
  intro e he
  simp only [searchEvents, List.mem_cons, List.not_mem_nil, or_false] at he
  rcases he with rfl | rfl | rfl <;> rfl

/-- No event of a batch insert closes the connection. -/
lemma batchEvents_no_close (c : List Employee) :
    ∀ e ∈ batchEvents c, isCloseEv e = false := by
  intro e he
  simp only [batchEvents, List.mem_cons, List.not_mem_nil, or_false] at he
  rcases he with rfl | rfl <;> rfl

/-- The listing loop only prints. -/
lemma listLoop_no_close (today : Date) :
    ∀ rows, ∀ e ∈ (listLoop today rows).1, isCloseEv e = false := by
  intro rows
  induction rows with
  | nil => intro e he; simp [listLoop] at he
  | cons x t ih =>
    intro e he
    rw [listLoop] at he
    cases hca : calculate_age x.birth_date today with
    | none => rw [hca] at he; simp at he
    | some a =>
      rw [hca] at he
      rcases List.mem_cons.mp he with rfl | he
      · rfl
      · exact ih e he

/-- Concatenations of close-free traces are close-free. -/
lemma no_close_append {l1 l2 : List Event}
    (h1 : ∀ e ∈ l1, isCloseEv e = false)
    (h2 : ∀ e ∈ l2, isCloseEv e = false) :
    ∀ e ∈ l1 ++ l2, isCloseEv e = false := by
  intro e he
  rcases List.mem_append.mp he with he | he
  · exact h1 e he
  · exact h2 e he

/-- A successful generation run emits only inserts and prints. -/
lemma generate_no_close {db : DB} {c : Nat} {r : RNG} {db' : DB}
    {evs : List Event} {r2 : RNG}
    (h : generate_random_employees db c r = Except.ok (db', evs, r2)) :
    ∀ e ∈ evs, isCloseEv e = false := by
  unfold generate_random_employees at h
  by_cases ht : db.tableExists = true
  · rw [if_pos ht] at h
    injection h with h'
    injection h' with h1 h'
    injection h' with h2 h3
    intro e he
    rw [← h2] at he
    rcases List.mem_append.mp he with he | he
    · rcases List.mem_flatten.mp he with ⟨l, hl, hel⟩
      rcases List.mem_map.mp hl with ⟨cch, hc, rfl⟩
      exact batchEvents_no_close cch e hel
    · simp only [List.mem_cons, List.not_mem_nil, or_false] at he
      rw [he]
      rfl
  · rw [if_neg ht] at h
    exact Except.noConfusion h

/-- Events drawn from a literal list of SQL statements and prints are
close-free. -/
lemma no_close_of_mem_out {l : List Event}
    (h : ∀ e ∈ l, isCloseEv e = false) : ∀ e ∈ l, isCloseEv e = false := h

/-- The dispatched operation of any mode — known or unknown, succeeding or
raising — never emits the close event itself. -/
lemma dispatch_no_close (mode : String) (args : List String) (db : DB)
    (today : Date) (clock : Nat → ℚ) (r : RNG) :
    ∀ e ∈ (dispatch mode args db today clock r).2.1, isCloseEv e = false := by
  by_cases h1 : mode = "1"
  · subst h1
    have hd : (dispatch "1" args db today clock r).2.1 =
        [Event.sqlCreateTable,
         Event.out "Table \x27employees\x27 created successfully."] := rfl
    rw [hd]
    intro e he
    simp only [List.mem_cons, List.not_mem_nil, or_false] at he
    rcases he with rfl | rfl <;> rfl
  by_cases h2 : mode = "2"
  · subst h2
    rcases args with _ | ⟨a, _ | ⟨b, _ | ⟨c, rest⟩⟩⟩
    · intro e he
      have hd : (dispatch "2" [] db today clock r).2.1 =
          [Event.out usage2Line] := rfl
      rw [hd] at he
      simp only [List.mem_cons, List.not_mem_nil, or_false] at he
      rw [he]; rfl
    · intro e he
      have hd : (dispatch "2" [a] db today clock r).2.1 =
          [Event.out usage2Line] := rfl
      rw [hd] at he
      simp only [List.mem_cons, List.not_mem_nil, or_false] at he
      rw [he]; rfl
    · intro e he
      have hd : (dispatch "2" [a, b] db today clock r).2.1 =
          [Event.out usage2Line] := rfl
      rw [hd] at he
      simp only [List.mem_cons, List.not_mem_nil, or_false] at he
      rw [he]; rfl
    · by_cases ht : db.tableExists = true
      · have hd : (dispatch "2" (a :: b :: c :: rest) db today clock r).2.1 =
            [Event.sqlInsert [⟨a, b, c⟩],
             Event.out ("Employee " ++ a ++ " added successfully.")] := by
          unfold dispatch add_employee
          simp [ht]
        rw [hd]
        intro e he
        simp only [List.mem_cons, List.not_mem_nil, or_false] at he
        rcases he with rfl | rfl <;> rfl
      · have hd : (dispatch "2" (a :: b :: c :: rest) db today clock r).2.1 =
            [] := by
          unfold dispatch add_employee
          simp [ht]
        rw [hd]
        intro e he
        simp at he
  by_cases h3 : mode = "3"
  · subst h3
    by_cases ht : db.tableExists = true
    · have hd : (dispatch "3" args db today clock r).2.1 =
          Event.sqlSelectGroup ::
            (listLoop today (sqlGroupRows db.rows)).1 := by
        unfold dispatch get_all_unique_employees
        simp [ht]
      rw [hd]
      intro e he
      rcases List.mem_cons.mp he with rfl | he
      · rfl
      · exact listLoop_no_close today _ e he
    · have hd : (dispatch "3" args db today clock r).2.1 = [] := by
        unfold dispatch get_all_unique_employees
        simp [ht]
      rw [hd]
      intro e he
      simp at he
  by_cases h4 : mode = "4"
  · subst h4
    cases hg : generate_random_employees db 1000000 r with
    | ok val =>
      obtain ⟨db', evs, r2⟩ := val
      have hd : (dispatch "4" args db today clock r).2.1 = evs := by
        unfold dispatch
        simp [hg]
      rw [hd]
      exact generate_no_close hg
    | error err =>
      have hd : (dispatch "4" args db today clock r).2.1 = [] := by
        unfold dispatch
        simp [hg]
      rw [hd]
      intro e he
      simp at he
  by_cases h5 : mode = "5"
  · subst h5
    by_cases ht : db.tableExists = true
    · have hd : (dispatch "5" args db today clock r).2.1 =
          searchEvents (searchRows db.rows).length (clock 1 - clock 0) := by
        unfold dispatch
        simp [search_ok db clock 0 ht]
      rw [hd]
      exact searchEvents_no_close _ _
    · have hd : (dispatch "5" args db today clock r).2.1 = [] := by
        unfold dispatch search_male_f_lastname
        simp [ht]
      rw [hd]
      intro e he
      simp at he
  by_cases h6 : mode = "6"
  · subst h6
    by_cases ht : db.tableExists = true
    · have h6t : ({ db with indexExists := true }).tableExists = true := ht
      have hopt : ∀ e ∈ [Event.sqlCreateIndex,
          Event.out "Database optimized with index on gender and full_name.",
          Event.out "Running performance test before and after optimization...",
          Event.out "\nBefore optimization:"], isCloseEv e = false := by
        intro e he
        simp only [List.mem_cons, List.not_mem_nil, or_false] at he
        rcases he with rfl | rfl | rfl | rfl <;> rfl
      have hafter : ∀ e ∈ [Event.out "\nAfter optimization:"],
          isCloseEv e = false := by
        intro e he
        simp only [List.mem_cons, List.not_mem_nil, or_false] at he
        rw [he]; rfl
      by_cases hz : clock 3 - clock 2 = 0
      · have hd : (dispatch "6" args db today clock r).2.1 =
            (([Event.sqlCreateIndex,
               Event.out "Database optimized with index on gender and full_name.",
               Event.out "Running performance test before and after optimization...",
               Event.out "\nBefore optimization:"] ++
              searchEvents (searchRows db.rows).length (clock 1 - clock 0) ++
              [Event.out "\nAfter optimization:"]) ++
             searchEvents (searchRows db.rows).length (clock 3 - clock 2)) := by
          unfold dispatch
          simp [optimize_ok_of db ht,
            search_ok { db with indexExists := true } clock 0 h6t,
            search_ok { db with indexExists := true } clock 2 h6t,
            hz, searchRows, searchEvents]
        rw [hd]
        exact no_close_append (no_close_append (no_close_append hopt
          (searchEvents_no_close _ _)) hafter) (searchEvents_no_close _ _)
      · have hd : (dispatch "6" args db today clock r).2.1 =
            ((([Event.sqlCreateIndex,
                Event.out "Database optimized with index on gender and full_name.",
                Event.out "Running performance test before and after optimization...",
                Event.out "\nBefore optimization:"] ++
               searchEvents (searchRows db.rows).length (clock 1 - clock 0) ++
               [Event.out "\nAfter optimization:"]) ++
              searchEvents (searchRows db.rows).length (clock 3 - clock 2)) ++
             [Event.out (reportLine (clock 1 - clock 0) (clock 3 - clock 2))]) := by
          unfold dispatch
          simp [optimize_ok_of db ht,
            search_ok { db with indexExists := true } clock 0 h6t,
            search_ok { db with indexExists := true } clock 2 h6t,
            hz, searchRows, searchEvents]
        rw [hd]
        refine no_close_append (no_close_append (no_close_append
          (no_close_append hopt (searchEvents_no_close _ _)) hafter)
          (searchEvents_no_close _ _)) ?_
        intro e he
        simp only [List.mem_cons, List.not_mem_nil, or_false] at he
        rw [he]; rfl
    · have hd : (dispatch "6" args db today clock r).2.1 = [] := by
        unfold dispatch optimize_database
        simp [ht]
      rw [hd]
      intro e he
      simp at he
  have hd : (dispatch mode args db today clock r).2.1 =
      [Event.out ("Unknown mode: " ++ mode)] := by
    unfold dispatch
    simp [h1, h2, h3, h4, h5, h6]
  rw [hd]
  intro e he
  simp only [List.mem_cons, List.not_mem_nil, or_false] at he
  rw [he]; rfl

/-- C7: whenever a mode argument is given — so the store is constructed —
the run closes the connection exactly once, on every dispatch branch
(known or unknown mode) and regardless of whether the dispatched operation
raised. -/
theorem close_called_once (mode : String) (args : List String) (db : DB)
    (today : Date) (clock : Nat → ℚ) (r : RNG) :
    (runMain (mode :: args) db today clock r).events.countP isCloseEv = 1 := by
  have hrm : (runMain (mode :: args) db today clock r).events =
      (dispatch mode args db today clock r).2.1 ++ [Event.closeConn] := rfl
  rw [hrm, List.countP_append]
  have h0 : (dispatch mode args db today clock r).2.1.countP isCloseEv = 0 := by
    rw [List.countP_eq_zero]
    intro e he
    rw [dispatch_no_close mode args db today clock r e he]
    exact Bool.false_ne_true
  rw [h0]
  rfl

/-! ## The end-to-end listing scenario (C5) -/

/-- C5, as stated, fails on the code: after mode 1, mode 2 with
`("Ford Henry A.", "1980-05-15", "Male")` and mode 3, no printed line of
any of the three runs starts with
`Ford Henry A., 1980-05-15, Male, age=` — the listing prints
`Name: ..., Birth Date: ..., Gender: ..., Age: ...` instead. -/
theorem listing_line_format_counterexample :
    hasFordLine
      ((runMain ["1"] ⟨false, [], false⟩ ⟨2026, 10, 12⟩ (fun _ => 0)
          ⟨fun _ => 0, 0⟩).events ++
       (runMain ["2", "Ford Henry A.", "1980-05-15", "Male"]
         (runMain ["1"] ⟨false, [], false⟩ ⟨2026, 10, 12⟩ (fun _ => 0)
           ⟨fun _ => 0, 0⟩).db
         ⟨2026, 10, 12⟩ (fun _ => 0) ⟨fun _ => 0, 0⟩).events ++
       (runMain ["3"]
         (runMain ["2", "Ford Henry A.", "1980-05-15", "Male"]
           (runMain ["1"] ⟨false, [], false⟩ ⟨2026, 10, 12⟩ (fun _ => 0)
             ⟨fun _ => 0, 0⟩).db
           ⟨2026, 10, 12⟩ (fun _ => 0) ⟨fun _ => 0, 0⟩).db
         ⟨2026, 10, 12⟩ (fun _ => 0) ⟨fun _ => 0, 0⟩).events) = false := by
  decide

/-- C5 (amended): running mode 1, then mode 2 with
`("Ford Henry A.", "1980-05-15", "Male")`, then mode 3 prints the line
`Name: Ford Henry A., Birth Date: 1980-05-15, Gender: Male, Age: <age>`
with the age computed for 1980-05-15 relative to the current date. -/
theorem end_to_end_listing (today : Date) (clock : Nat → ℚ) (r : RNG)
    (a : Int) (h : calculate_age "1980-05-15" today = some a) :
    Event.out
        ("Name: Ford Henry A., Birth Date: 1980-05-15, Gender: Male, Age: "
          ++ toString a) ∈
      (runMain ["3"]
        (runMain ["2", "Ford Henry A.", "1980-05-15", "Male"]
          (runMain ["1"] ⟨false, [], false⟩ today clock r).db today clock r).db
        today clock r).events := by
  have hdb2 : (runMain ["2", "Ford Henry A.", "1980-05-15", "Male"]
      (runMain ["1"] ⟨false, [], false⟩ today clock r).db today clock r).db =
      ⟨true, [⟨"Ford Henry A.", "1980-05-15", "Male"⟩], false⟩ := rfl
  rw [hdb2]
  have hevs : (runMain ["3"]
      (⟨true, [⟨"Ford Henry A.", "1980-05-15", "Male"⟩], false⟩ : DB)
      today clock r).events =
      Event.sqlSelectGroup ::
        ((listLoop today [⟨"Ford Henry A.", "1980-05-15", "Male"⟩]).1 ++
          [Event.closeConn]) := rfl
  rw [hevs]
  have hll : (listLoop today
      [(⟨"Ford Henry A.", "1980-05-15", "Male"⟩ : Employee)]).1 =
      [Event.out (listLine ⟨"Ford Henry A.", "1980-05-15", "Male"⟩ a)] := by
    rw [listLoop,
      show calculate_age
          ((⟨"Ford Henry A.", "1980-05-15", "Male"⟩ : Employee)).birth_date
          today = some a from h]
    rfl
  rw [hll]
  have hline : listLine ⟨"Ford Henry A.", "1980-05-15", "Male"⟩ a =
      "Name: Ford Henry A., Birth Date: 1980-05-15, Gender: Male, Age: "
        ++ toString a := rfl
  rw [← hline]
  exact List.mem_cons_of_mem _ (List.mem_cons_self _ _)

/-- C5 witness: the scenario on the concrete date 2026-10-12 (age 46). -/
theorem end_to_end_listing_witness :
    calculate_age "1980-05-15" ⟨2026, 10, 12⟩ = some 46 ∧
    Event.out
        ("Name: Ford Henry A., Birth Date: 1980-05-15, Gender: Male, Age: "
          ++ toString (46 : Int)) ∈
      (runMain ["3"]
        (runMain ["2", "Ford Henry A.", "1980-05-15", "Male"]
          (runMain ["1"] ⟨false, [], false⟩ ⟨2026, 10, 12⟩ (fun _ => 0)
            ⟨fun _ => 0, 0⟩).db
          ⟨2026, 10, 12⟩ (fun _ => 0) ⟨fun _ => 0, 0⟩).db
        ⟨2026, 10, 12⟩ (fun _ => 0) ⟨fun _ => 0, 0⟩).events :=
  ⟨by decide, end_to_end_listing ⟨2026, 10, 12⟩ (fun _ => 0) ⟨fun _ => 0, 0⟩
    46 (by decide)⟩

end EmployeeDir
